import Mathlib

/-!
Verification of the Battle-Report instance tracker, non-maximum suppression
and scroll policy, shallowly embedded from the Python source
(src/modules/battle_report_scraper.py and src/core/template_matcher.py).

Python dicts are modelled as association lists with Python's insertion
semantics (update in place if the key exists, append otherwise); Python sets
of strings are modelled as duplicate-free lists; timestamps (time.time())
are modelled as integers; pixel coordinates as integers.
-/

namespace BattleReport

/-- Association-list lookup, mirroring Python dict.get: first entry whose
key matches. -/
def lookupEntry {α β : Type} [DecidableEq α] : List (α × β) → α → Option β
  | [], _ => none
  | e :: rest, k => if e.1 = k then some e.2 else lookupEntry rest k

/-- Remove every entry with the given key, mirroring Python dict.pop
(dict keys are unique, so at most one entry is ever removed in practice). -/
def removeEntry {α β : Type} [DecidableEq α] : List (α × β) → α → List (α × β)
  | [], _ => []
  | e :: rest, k => if e.1 = k then removeEntry rest k else e :: removeEntry rest k

/-- Replace the value at the given key, keeping list order. -/
def replaceEntry {α β : Type} [DecidableEq α] : List (α × β) → α → β → List (α × β)
  | [], _, _ => []
  | e :: rest, k, v => if e.1 = k then (k, v) :: replaceEntry rest k v else e :: replaceEntry rest k v

/-- Python dict assignment d[k] = v: update in place when the key exists,
append otherwise. -/
def insertEntry {α β : Type} [DecidableEq α] (m : List (α × β)) (k : α) (v : β) : List (α × β) :=
  if (lookupEntry m k).isSome then replaceEntry m k v else m ++ [(k, v)]

/-- Python set.add for string sets modelled as lists. -/
def addToSet (s : List String) (x : String) : List String :=
  if x ∈ s then s else s ++ [x]

/-- One tracked card, embedded from dataclass SeenCard
(hero_name, gametag, last_seen, y_center, processed). -/
structure SeenCard where
  hero_name : String
  gametag : Option String
  last_seen : Int
  y_center : Int
  processed : Bool
deriving DecidableEq, Repr

/-- Python str.strip(): drop whitespace from both ends (structurally
recursive embedding so that proofs can evaluate it). -/
def pyStrip (s : String) : String :=
  ⟨((s.data.dropWhile Char.isWhitespace).reverse.dropWhile Char.isWhitespace).reverse⟩

/-- Python str.lower(): lower-case every character. -/
def pyLower (s : String) : String :=
  ⟨s.data.map Char.toLower⟩

/-- InstanceTracker._hero_key: hero_name.strip().lower(). -/
def heroKey (hero_name : String) : String :=
  pyLower (pyStrip hero_name)

/-- InstanceTracker._gametag_key: gametag.strip().lower() when the gametag is
truthy (non-None and non-empty), else the UNKNOWN sentinel (None). -/
def gametagKey : Option String → Option String
  | none => none
  | some g => if g = "" then none else some (pyLower (pyStrip g))

/-- State of InstanceTracker: the seen map keyed by (hero_key, gametag_key),
the processed-gametags set, both Y watermarks, and the per-hero
last-processed timestamps used for the reprocess cooldown. -/
structure InstanceTracker where
  seen : List ((String × Option String) × SeenCard)
  gametags : List String
  max_y_processed : Int
  min_y_seen : Int
  last_processed_ts : List (String × Int)
deriving DecidableEq, Repr

/-- InstanceTracker.__init__: empty maps, watermarks 0 and 99999. -/
def emptyTracker : InstanceTracker :=
  { seen := [], gametags := [], max_y_processed := 0, min_y_seen := 99999,
    last_processed_ts := [] }

/-- InstanceTracker.add_detection(hero_name, y_center): lowers min_y_seen and
creates the (hero, UNKNOWN) entry, or refreshes its last_seen and y_center if
it already exists. The call time (time.time()) is an explicit argument. -/
def add_detection (st : InstanceTracker) (hero_name : String) (y_center : Int)
    (now : Int) : InstanceTracker :=
  let key : String × Option String := (heroKey hero_name, none)
  let newSeen :=
    match lookupEntry st.seen key with
    | none =>
        insertEntry st.seen key
          { hero_name := hero_name, gametag := none, last_seen := now,
            y_center := y_center, processed := false }
    | some c =>
        insertEntry st.seen key
          { hero_name := c.hero_name, gametag := c.gametag, last_seen := now,
            y_center := y_center, processed := c.processed }
  { st with min_y_seen := min st.min_y_seen y_center, seen := newSeen }

/-- The blocking test inside should_process's loop over seen.items():
entries of a different hero, unprocessed entries and UNKNOWN-keyed entries
are skipped; a processed, labelled entry of the same hero blocks when it was
seen less than PROCESSED_LOCK_S = 45 s ago or lies within
SAME_CARD_Y_TOLERANCE = 320 px vertically. -/
def entryBlocks (hero_key : String) (y_center now : Int)
    (e : (String × Option String) × SeenCard) : Bool :=
  decide (e.1.1 = hero_key) && e.2.processed && e.1.2.isSome &&
    (decide (now - e.2.last_seen < 45) || decide ((y_center - e.2.y_center).natAbs < 320))

/-- The cooldown test at the top of should_process: last_processed_ts.get
returned a truthy value (Python treats timestamp 0 as falsy) less than
REPROCESS_COOLDOWN_S = 60 s old. -/
def cooldownActive (ts_map : List (String × Int)) (hero_key : String) (now : Int) : Bool :=
  match lookupEntry ts_map hero_key with
  | none => false
  | some ts => decide (ts ≠ 0) && decide (now - ts < 60)

/-- InstanceTracker.should_process(hero_name, y_center): false when the hero
cooldown is active or some processed labelled entry of the same hero blocks. -/
def should_process (st : InstanceTracker) (hero_name : String) (y_center now : Int) : Bool :=
  let hero_key := heroKey hero_name
  if cooldownActive st.last_processed_ts hero_key now then false
  else !(st.seen.any (entryBlocks hero_key y_center now))

/-- mark_processed's gametag normalisation: gametag.strip() when truthy,
None for a Python-falsy gametag (None or the empty string). -/
def normalizeTag : Option String → Option String
  | none => none
  | some g => if g = "" then none else some (pyStrip g)

/-- InstanceTracker.mark_processed(hero_name, y_center, gametag): pops the
(hero, UNKNOWN) entry, creates or updates the entry at
(hero_key, gametag_key) with processed set, raises max_y_processed, records
the lower-cased gametag when truthy, and stamps last_processed_ts. -/
def mark_processed (st : InstanceTracker) (hero_name : String) (y_center : Int)
    (gametag : Option String) (now : Int) : InstanceTracker :=
  let hero_key := heroKey hero_name
  let normalized_tag : Option String := normalizeTag gametag
  let unknown_key : String × Option String := (hero_key, none)
  let unknown_card := lookupEntry st.seen unknown_key
  let seen1 := removeEntry st.seen unknown_key
  let key : String × Option String := (hero_key, gametagKey normalized_tag)
  let newSeen :=
    match lookupEntry seen1 key with
    | none =>
        let base :=
          match unknown_card with
          | some c => c
          | none =>
              { hero_name := hero_name, gametag := none, last_seen := now,
                y_center := y_center, processed := false : SeenCard }
        insertEntry seen1 key
          { hero_name := base.hero_name, gametag := normalized_tag,
            last_seen := now, y_center := y_center, processed := true }
    | some c =>
        insertEntry seen1 key
          { hero_name := c.hero_name, gametag := normalized_tag,
            last_seen := now, y_center := y_center, processed := true }
  { seen := newSeen,
    gametags :=
      match normalized_tag with
      | none => st.gametags
      | some t => if t = "" then st.gametags else addToSet st.gametags (pyLower t),
    max_y_processed := max st.max_y_processed y_center,
    min_y_seen := st.min_y_seen,
    last_processed_ts := insertEntry st.last_processed_ts hero_key now }

/-- InstanceTracker.needs_scroll: max_y_processed > min_y_seen + 250. -/
def needs_scroll (st : InstanceTracker) : Bool :=
  decide (st.max_y_processed > st.min_y_seen + 250)

/-- InstanceTracker.reset: clears seen, gametags and both watermarks.
The last_processed_ts map is not touched by the source. -/
def reset (st : InstanceTracker) : InstanceTracker :=
  { seen := [], gametags := [], max_y_processed := 0, min_y_seen := 99999,
    last_processed_ts := st.last_processed_ts }

/-- Fold a list of (hero_name, y_center, time) sightings through
add_detection. -/
def applyDetections (st : InstanceTracker) : List (String × Int × Int) → InstanceTracker
  | [] => st
  | d :: rest => applyDetections (add_detection st d.1 d.2.1 d.2.2) rest

/-- Tracker states reachable through the public API from a fresh tracker
(should_process is pure and does not change state). -/
inductive Reachable : InstanceTracker → Prop where
  | start : Reachable emptyTracker
  | add (st : InstanceTracker) (h : String) (y t : Int) :
      Reachable st → Reachable (add_detection st h y t)
  | mark (st : InstanceTracker) (h : String) (y : Int) (g : Option String) (t : Int) :
      Reachable st → Reachable (mark_processed st h y g t)
  | clear (st : InstanceTracker) : Reachable st → Reachable (reset st)

/-- One template-matching candidate, embedded from dataclass MatchResult
(the fields _non_max_suppression reads: position, size, confidence).
Confidences are modelled as rationals. -/
structure MatchResult where
  template_name : String
  position : Int × Int
  size : Int × Int
  confidence : ℚ
deriving DecidableEq, Repr

/-- The bounding box [x, y, x + w, y + h] built for each match. -/
def box (m : MatchResult) : Int × Int × Int × Int :=
  (m.position.1, m.position.2, m.position.1 + m.size.1, m.position.2 + m.size.2)

/-- Intersection area of two boxes: max(0, x2 - x1) * max(0, y2 - y1) with
x1 = max of lefts, x2 = min of rights, and similarly vertically. -/
def interArea (a b : Int × Int × Int × Int) : Int :=
  max 0 (min a.2.2.1 b.2.2.1 - max a.1 b.1) * max 0 (min a.2.2.2 b.2.2.2 - max a.2.1 b.2.1)

/-- Area of one box: (x2 - x1) * (y2 - y1). -/
def boxArea (a : Int × Int × Int × Int) : Int :=
  (a.2.2.1 - a.1) * (a.2.2.2 - a.2.1)

/-- IoU as computed by the source: intersection / (union + 1e-6). -/
def iouQ (a b : Int × Int × Int × Int) : ℚ :=
  (interArea a b : ℚ) / ((boxArea a : ℚ) + (boxArea b : ℚ) - (interArea a b : ℚ) + 1 / 1000000)

/-- Insert a match into a confidence-descending list. -/
def insertDesc (m : MatchResult) : List MatchResult → List MatchResult
  | [] => [m]
  | x :: xs => if x.confidence < m.confidence then m :: x :: xs else x :: insertDesc m xs

/-- np.argsort(confidences)[::-1] applied to the matches: sort by
confidence, highest first. -/
def sortByConfDesc : List MatchResult → List MatchResult
  | [] => []
  | m :: rest => insertDesc m (sortByConfDesc rest)

/-- The greedy suppression loop: keep the highest-confidence remaining
candidate, discard the others whose IoU with it is not below the overlap
threshold, repeat. -/
def nmsLoop (thr : ℚ) : List MatchResult → List MatchResult
  | [] => []
  | m :: rest =>
      m :: nmsLoop thr (rest.filter fun o => decide (iouQ (box m) (box o) < thr))
termination_by l => l.length
decreasing_by
  simp only [List.length_cons]
  exact Nat.lt_succ_of_le (List.length_filter_le _ _)

/-- TemplateMatcher._non_max_suppression(matches, overlap_threshold). -/
def non_max_suppression (ms : List MatchResult) (overlap_threshold : ℚ) : List MatchResult :=
  nmsLoop overlap_threshold (sortByConfDesc ms)

/-- The scroll decision of BattleReportScraper.process_all_participants,
as the argument passed to pyautogui.scroll: -30 when no cards were found,
-60 when cards were found, none were processed and the content hash did not
change, -50 / -40 when cards were found, none were processed and the content
changed (depending on needs_scroll), and -25 when cards were processed. -/
def scrollAmount (cards_found cards_processed : Nat) (content_changed : Bool)
    (tracker : InstanceTracker) : Int :=
  if cards_found = 0 then -30
  else if cards_processed = 0 then
    if !content_changed then -60
    else if needs_scroll tracker then -50
    else -40
  else -25

/-! ### Association-list lemmas -/

theorem lookup_append {α β : Type} [DecidableEq α] (m l : List (α × β)) (k : α) :
    lookupEntry (m ++ l) k =
      match lookupEntry m k with
      | some v => some v
      | none => lookupEntry l k := by
  induction m with
  | nil => simp [lookupEntry]
  | cons e rest ih =>
      by_cases hk : e.1 = k
      · simp [lookupEntry, hk]
      · simpa [lookupEntry, hk] using ih

theorem lookup_replace_self {α β : Type} [DecidableEq α] (m : List (α × β)) (k : α) (v : β)
    (h : (lookupEntry m k).isSome) : lookupEntry (replaceEntry m k v) k = some v := by
  induction m with
  | nil => simp [lookupEntry] at h
  | cons e rest ih =>
      by_cases hk : e.1 = k
      · simp [replaceEntry, hk, lookupEntry]
      · simp only [lookupEntry, if_neg hk] at h
        simp [replaceEntry, hk, lookupEntry, ih h]

theorem lookup_insert_self {α β : Type} [DecidableEq α] (m : List (α × β)) (k : α) (v : β) :
    lookupEntry (insertEntry m k v) k = some v := by
  unfold insertEntry
  by_cases h : (lookupEntry m k).isSome
  · simp [h, lookup_replace_self m k v h]
  · rw [if_neg h, lookup_append]
    simp only [Option.not_isSome_iff_eq_none] at h
    simp [h, lookupEntry]

theorem lookup_replace_ne {α β : Type} [DecidableEq α] (m : List (α × β)) (k k' : α) (v : β)
    (h : k' ≠ k) : lookupEntry (replaceEntry m k v) k' = lookupEntry m k' := by
  induction m with
  | nil => simp [replaceEntry]
  | cons e rest ih =>
      by_cases hk : e.1 = k
      · have : ¬ (k = k') := fun hc => h hc.symm
        simp [replaceEntry, hk, lookupEntry, this, ih, hk ▸ this]
      · simp [replaceEntry, hk, lookupEntry, ih]

theorem lookup_insert_ne {α β : Type} [DecidableEq α] (m : List (α × β)) (k k' : α) (v : β)
    (h : k' ≠ k) : lookupEntry (insertEntry m k v) k' = lookupEntry m k' := by
  unfold insertEntry
  by_cases hs : (lookupEntry m k).isSome
  · simp [hs, lookup_replace_ne m k k' v h]
  · rw [if_neg hs, lookup_append]
    have : ¬ (k = k') := fun hc => h hc.symm
    cases hl : lookupEntry m k' <;> simp [lookupEntry, this]

theorem lookup_remove_self {α β : Type} [DecidableEq α] (m : List (α × β)) (k : α) :
    lookupEntry (removeEntry m k) k = none := by
  induction m with
  | nil => simp [removeEntry, lookupEntry]
  | cons e rest ih =>
      by_cases hk : e.1 = k
      · simp [removeEntry, hk, ih]
      · simp [removeEntry, hk, lookupEntry, ih]

theorem lookup_remove_ne {α β : Type} [DecidableEq α] (m : List (α × β)) (k k' : α)
    (h : k' ≠ k) : lookupEntry (removeEntry m k) k' = lookupEntry m k' := by
  induction m with
  | nil => simp [removeEntry]
  | cons e rest ih =>
      by_cases hk : e.1 = k
      · have hkk : ¬ (k = k') := fun hc => h hc.symm
        have he : ¬ (e.1 = k') := hk ▸ hkk
        simp [removeEntry, hk, lookupEntry, hkk, he, ih]
      · simp [removeEntry, hk, lookupEntry, ih]

theorem remove_remove_self {α β : Type} [DecidableEq α] (m : List (α × β)) (k : α) :
    removeEntry (removeEntry m k) k = removeEntry m k := by
  induction m with
  | nil => simp [removeEntry]
  | cons e rest ih =>
      by_cases hk : e.1 = k
      · simp [removeEntry, hk, ih]
      · simp [removeEntry, hk, ih]

theorem remove_replace_self {α β : Type} [DecidableEq α] (m : List (α × β)) (k : α) (v : β) :
    removeEntry (replaceEntry m k v) k = removeEntry m k := by
  induction m with
  | nil => simp [replaceEntry, removeEntry]
  | cons e rest ih =>
      by_cases hk : e.1 = k
      · simp [replaceEntry, hk, removeEntry, ih]
      · simp [replaceEntry, hk, removeEntry, ih]

theorem remove_append {α β : Type} [DecidableEq α] (m l : List (α × β)) (k : α) :
    removeEntry (m ++ l) k = removeEntry m k ++ removeEntry l k := by
  induction m with
  | nil => simp [removeEntry]
  | cons e rest ih =>
      by_cases hk : e.1 = k
      · simp [removeEntry, hk, ih]
      · simp [removeEntry, hk, ih]

theorem remove_insert_self {α β : Type} [DecidableEq α] (m : List (α × β)) (k : α) (v : β) :
    removeEntry (insertEntry m k v) k = removeEntry m k := by
  unfold insertEntry
  by_cases hs : (lookupEntry m k).isSome
  · simp [hs, remove_replace_self]
  · simp [hs, remove_append, removeEntry]

theorem remove_of_lookup_none {α β : Type} [DecidableEq α] (m : List (α × β)) (k : α)
    (h : lookupEntry m k = none) : removeEntry m k = m := by
  induction m with
  | nil => simp [removeEntry]
  | cons e rest ih =>
      by_cases hk : e.1 = k
      · simp [lookupEntry, hk] at h
      · simp only [lookupEntry, if_neg hk] at h
        simp [removeEntry, hk, ih h]

theorem keys_replace {α β : Type} [DecidableEq α] (m : List (α × β)) (k : α) (v : β) :
    (replaceEntry m k v).map Prod.fst = m.map Prod.fst := by
  induction m with
  | nil => simp [replaceEntry]
  | cons e rest ih =>
      by_cases hk : e.1 = k
      · simp [replaceEntry, hk, ih]
      · simp [replaceEntry, hk, ih]

theorem keys_insert {α β : Type} [DecidableEq α] (m : List (α × β)) (k : α) (v : β) :
    (insertEntry m k v).map Prod.fst =
      if (lookupEntry m k).isSome then m.map Prod.fst else m.map Prod.fst ++ [k] := by
  unfold insertEntry
  by_cases hs : (lookupEntry m k).isSome
  · simp [hs, keys_replace]
  · simp [hs]

theorem mem_replace {α β : Type} [DecidableEq α] {e : α × β} {m : List (α × β)} {k : α} {v : β}
    (h : e ∈ replaceEntry m k v) : e = (k, v) ∨ e ∈ m := by
  induction m with
  | nil => simp [replaceEntry] at h
  | cons x rest ih =>
      by_cases hk : x.1 = k
      · simp only [replaceEntry, if_pos hk, List.mem_cons] at h
        rcases h with h | h
        · exact Or.inl h
        · rcases ih h with h | h
          · exact Or.inl h
          · exact Or.inr (List.mem_cons_of_mem _ h)
      · simp only [replaceEntry, if_neg hk, List.mem_cons] at h
        rcases h with h | h
        · exact Or.inr (h ▸ List.mem_cons_self _ _)
        · rcases ih h with h | h
          · exact Or.inl h
          · exact Or.inr (List.mem_cons_of_mem _ h)

theorem mem_insert {α β : Type} [DecidableEq α] {e : α × β} {m : List (α × β)} {k : α} {v : β}
    (h : e ∈ insertEntry m k v) : e = (k, v) ∨ e ∈ m := by
  unfold insertEntry at h
  by_cases hs : (lookupEntry m k).isSome
  · rw [if_pos hs] at h
    exact mem_replace h
  · rw [if_neg hs] at h
    rcases List.mem_append.mp h with h | h
    · exact Or.inr h
    · simp only [List.mem_singleton] at h
      exact Or.inl h

theorem mem_remove {α β : Type} [DecidableEq α] {e : α × β} {m : List (α × β)} {k : α}
    (h : e ∈ removeEntry m k) : e ∈ m := by
  induction m with
  | nil => simp [removeEntry] at h
  | cons x rest ih =>
      by_cases hk : x.1 = k
      · simp only [removeEntry, if_pos hk] at h
        exact List.mem_cons_of_mem _ (ih h)
      · simp only [removeEntry, if_neg hk, List.mem_cons] at h
        rcases h with h | h
        · exact h ▸ List.mem_cons_self _ _
        · exact List.mem_cons_of_mem _ (ih h)

theorem lookup_mem {α β : Type} [DecidableEq α] {m : List (α × β)} {k : α} {v : β}
    (h : lookupEntry m k = some v) : (k, v) ∈ m := by
  induction m with
  | nil => simp [lookupEntry] at h
  | cons e rest ih =>
      by_cases hk : e.1 = k
      · simp only [lookupEntry, if_pos hk, Option.some.injEq] at h
        have : (k, v) = e := by
          cases e with
          | mk a b => cases hk; cases h; rfl
        exact this ▸ List.mem_cons_self _ _
      · simp only [lookupEntry, if_neg hk] at h
        exact List.mem_cons_of_mem _ (ih h)

theorem mem_addToSet_self (s : List String) (x : String) : x ∈ addToSet s x := by
  unfold addToSet
  by_cases h : x ∈ s
  · simp [h]
  · simp [h]

theorem addToSet_idem (s : List String) (x : String) :
    addToSet (addToSet s x) x = addToSet s x := by
  unfold addToSet
  by_cases h : x ∈ s
  · simp [h]
  · simp [h]

/-! ### Tracker bridging lemmas -/

theorem cooldownActive_iff (ts_map : List (String × Int)) (hk : String) (now : Int) :
    cooldownActive ts_map hk now = true ↔
      ∃ ts, lookupEntry ts_map hk = some ts ∧ ts ≠ 0 ∧ now - ts < 60 := by
  unfold cooldownActive
  cases hl : lookupEntry ts_map hk with
  | none => simp
  | some ts => simp [hl, Bool.and_eq_true, decide_eq_true_iff]

theorem entryBlocks_iff (hk : String) (y now : Int) (e : (String × Option String) × SeenCard) :
    entryBlocks hk y now e = true ↔
      e.1.1 = hk ∧ e.2.processed = true ∧ e.1.2 ≠ none ∧
        (now - e.2.last_seen < 45 ∨ (y - e.2.y_center).natAbs < 320) := by
  unfold entryBlocks
  simp [Bool.and_eq_true, Bool.or_eq_true, decide_eq_true_iff, Option.isSome_iff_ne_none,
    and_assoc]

theorem should_process_false_iff (st : InstanceTracker) (h : String) (y now : Int) :
    should_process st h y now = false ↔
      cooldownActive st.last_processed_ts (heroKey h) now = true ∨
        ∃ e ∈ st.seen, entryBlocks (heroKey h) y now e = true := by
  unfold should_process
  by_cases hcd : cooldownActive st.last_processed_ts (heroKey h) now = true
  · simp [hcd]
  · simp only [Bool.not_eq_true] at hcd
    simp [hcd, List.any_eq_true]

/-- The seen map after mark_processed always has the shape
insertEntry (removeEntry old unknown) key card with card.processed = true. -/
theorem mark_processed_seen_shape (st : InstanceTracker) (h : String) (y : Int)
    (g : Option String) (t : Int) :
    ∃ card : SeenCard,
      (mark_processed st h y g t).seen =
        insertEntry (removeEntry st.seen (heroKey h, none))
          (heroKey h, gametagKey (normalizeTag g)) card ∧
      card.processed = true := by
  unfold mark_processed
  cases hl : lookupEntry (removeEntry st.seen (heroKey h, none))
      (heroKey h, gametagKey (normalizeTag g)) with
  | none =>
      simp only [hl]
      exact ⟨_, rfl, rfl⟩
  | some c =>
      simp only [hl]
      exact ⟨_, rfl, rfl⟩

/-- Entries after mark_processed: either the freshly written processed card
at the hero+gametag key, or an entry already present before the call. -/
theorem mem_mark_processed {e : (String × Option String) × SeenCard}
    (st : InstanceTracker) (h : String) (y : Int) (g : Option String) (t : Int)
    (hm : e ∈ (mark_processed st h y g t).seen) :
    (e.1 = (heroKey h, gametagKey (normalizeTag g)) ∧ e.2.processed = true) ∨ e ∈ st.seen := by
  obtain ⟨card, hshape, hproc⟩ := mark_processed_seen_shape st h y g t
  rw [hshape] at hm
  rcases mem_insert hm with hcase | hcase
  · exact Or.inl ⟨by rw [hcase], by rw [hcase]; exact hproc⟩
  · exact Or.inr (mem_remove hcase)

/-- Entries after add_detection: either an entry at the hero+UNKNOWN key, or
an entry already present before the call. -/
theorem mem_add_detection {e : (String × Option String) × SeenCard}
    (st : InstanceTracker) (h : String) (y t : Int)
    (hm : e ∈ (add_detection st h y t).seen) :
    e.1 = (heroKey h, none) ∨ e ∈ st.seen := by
  unfold add_detection at hm
  cases hl : lookupEntry st.seen (heroKey h, none) with
  | none =>
      simp only [hl] at hm
      rcases mem_insert hm with hcase | hcase
      · exact Or.inl (by rw [hcase])
      · exact Or.inr hcase
  | some c =>
      simp only [hl] at hm
      rcases mem_insert hm with hcase | hcase
      · exact Or.inl (by rw [hcase])
      · exact Or.inr hcase

/-- Invariant for add_detection-only runs: no processed entry and no
last-processed timestamp. -/
def FreshDetections (st : InstanceTracker) : Prop :=
  (∀ e ∈ st.seen, e.2.processed = false) ∧ st.last_processed_ts = []

theorem freshDetections_add (st : InstanceTracker) (h : String) (y t : Int)
    (hf : FreshDetections st) : FreshDetections (add_detection st h y t) := by
  obtain ⟨hseen, hts⟩ := hf
  constructor
  · intro e hm
    unfold add_detection at hm
    cases hl : lookupEntry st.seen (heroKey h, none) with
    | none =>
        simp only [hl] at hm
        rcases mem_insert hm with hcase | hcase
        · rw [hcase]
        · exact hseen e hcase
    | some c =>
        simp only [hl] at hm
        rcases mem_insert hm with hcase | hcase
        · rw [hcase]
          exact hseen (_, c) (lookup_mem hl)
        · exact hseen e hcase
  · exact hts

theorem freshDetections_apply (ds : List (String × Int × Int)) (st : InstanceTracker)
    (hf : FreshDetections st) : FreshDetections (applyDetections st ds) := by
  induction ds generalizing st with
  | nil => exact hf
  | cons d rest ih => exact ih _ (freshDetections_add st d.1 d.2.1 d.2.2 hf)

theorem should_process_of_fresh (st : InstanceTracker) (h : String) (y now : Int)
    (hf : FreshDetections st) : should_process st h y now = true := by
  obtain ⟨hseen, hts⟩ := hf
  unfold should_process cooldownActive
  rw [hts]
  simp only [lookupEntry]
  rw [if_neg (by simp)]
  simp only [Bool.not_eq_true', List.any_eq_false]
  intro e hm
  have := hseen e hm
  simp [entryBlocks, this]

/-! ### Claim theorems -/

/-- C4: merge-on-confirm. From an empty tracker, add_detection("Haemon", 100)
followed by mark_processed("Haemon", 105, "PlayerX") leaves no entry keyed
("haemon", UNKNOWN) and exactly one entry, keyed ("haemon", "playerx"), with
processed = true (for any call times). -/
theorem merge_on_confirm (t1 t2 : Int) :
    lookupEntry (mark_processed (add_detection emptyTracker "Haemon" 100 t1)
        "Haemon" 105 (some "PlayerX") t2).seen ("haemon", none) = none ∧
    (mark_processed (add_detection emptyTracker "Haemon" 100 t1)
        "Haemon" 105 (some "PlayerX") t2).seen.map (fun e => (e.1, e.2.processed)) =
      [(("haemon", some "playerx"), true)] :=
  ⟨rfl, rfl⟩

/-- C9: in an iteration with cards found but none newly processed, the scroll
magnitude chosen when the content hash is unchanged strictly exceeds the one
chosen when the content changed, whatever needs_scroll says. -/
theorem scroll_stagnant_exceeds_changed (cards_found : Nat) (trA trB : InstanceTracker)
    (hcf : cards_found ≠ 0) :
    (scrollAmount cards_found 0 true trB).natAbs <
      (scrollAmount cards_found 0 false trA).natAbs := by
  unfold scrollAmount
  rw [if_neg hcf, if_neg hcf]
  cases hns : needs_scroll trB <;> simp [hns]

/-- Witness for C9 at cards_found = 3 with fresh trackers. -/
theorem scroll_stagnant_exceeds_changed_witness :
    (scrollAmount 3 0 true emptyTracker).natAbs <
      (scrollAmount 3 0 false emptyTracker).natAbs :=
  scroll_stagnant_exceeds_changed 3 emptyTracker emptyTracker (by decide)

/-- C10: in every reachable tracker state, every entry whose key carries a
non-UNKNOWN label component has processed = true. -/
theorem labelled_entries_processed :
    ∀ st : InstanceTracker, Reachable st →
      ∀ (kk : String × Option String) (c : SeenCard),
        (kk, c) ∈ st.seen → kk.2 ≠ none → c.processed = true := by
  intro st hr
  induction hr with
  | start =>
      intro kk c hm _
      simp [emptyTracker] at hm
  | add st0 h y t _ ih =>
      intro kk c hm hne
      rcases mem_add_detection st0 h y t hm with hcase | hcase
      · exact absurd (congrArg Prod.snd hcase) hne
      · exact ih kk c hcase hne
  | mark st0 h y g t _ ih =>
      intro kk c hm hne
      rcases mem_mark_processed st0 h y g t hm with ⟨_, hp⟩ | hcase
      · exact hp
      · exact ih kk c hcase hne
  | clear st0 _ _ =>
      intro kk c hm _
      simp [reset] at hm

/-- Witness for C10: the state reached by confirming ("a", "x") holds the
labelled entry, and the theorem yields its processed flag. -/
theorem labelled_entries_processed_witness :
    ((("a", some "x"), SeenCard.mk "a" (some "x") 7 5 true) ∈
        (mark_processed emptyTracker "a" 5 (some "x") 7).seen) ∧
      (SeenCard.mk "a" (some "x") 7 5 true).processed = true :=
  ⟨by decide,
    labelled_entries_processed (mark_processed emptyTracker "a" 5 (some "x") 7)
      (Reachable.mark emptyTracker "a" 5 (some "x") 7 Reachable.start)
      ("a", some "x") (SeenCard.mk "a" (some "x") 7 5 true) (by decide) (by decide)⟩

/-- C1 counterexample: after mark_processed("h", 100, None) the tracker holds
no Confirmed (labelled) entry at all, yet should_process("h", 5000) ten
seconds later returns false — the skip comes from the per-hero cooldown
timestamp, not from a Confirmed entry. -/
theorem skip_without_confirmed_entry_cex :
    should_process (mark_processed emptyTracker "h" 100 none 1000) "h" 5000 1010 = false ∧
    (mark_processed emptyTracker "h" 100 none 1000).seen.all (fun e => e.1.2.isNone) = true :=
  ⟨rfl, rfl⟩

/-- C1 amended: should_process returns false iff the per-hero last-processed
timestamp (set by any mark_processed, label or not, and surviving reset) is
a nonzero time less than 60 s old, or some Confirmed entry (non-UNKNOWN key,
processed) of the same hero was last seen less than 45 s ago or lies within
320 px vertically; and on any tracker built from add_detection calls alone
should_process always returns true. -/
theorem should_process_false_characterization (st : InstanceTracker) (h : String)
    (y now : Int) :
    (should_process st h y now = false ↔
      (∃ ts, lookupEntry st.last_processed_ts (heroKey h) = some ts ∧
        ts ≠ 0 ∧ now - ts < 60) ∨
      (∃ (kk : String × Option String) (c : SeenCard), (kk, c) ∈ st.seen ∧
        kk.1 = heroKey h ∧ kk.2 ≠ none ∧ c.processed = true ∧
        (now - c.last_seen < 45 ∨ (y - c.y_center).natAbs < 320))) ∧
    (∀ ds : List (String × Int × Int),
      should_process (applyDetections emptyTracker ds) h y now = true) := by
  constructor
  · rw [should_process_false_iff]
    constructor
    · rintro (hcd | ⟨e, hm, hb⟩)
      · exact Or.inl ((cooldownActive_iff _ _ _).mp hcd)
      · obtain ⟨h1, h2, h3, h4⟩ := (entryBlocks_iff _ _ _ _).mp hb
        exact Or.inr ⟨e.1, e.2, hm, h1, h3, h2, h4⟩
    · rintro (hcd | ⟨kk, c, hm, h1, h3, h2, h4⟩)
      · exact Or.inl ((cooldownActive_iff _ _ _).mpr hcd)
      · exact Or.inr ⟨(kk, c), hm, (entryBlocks_iff _ _ _ _).mpr ⟨h1, h2, h3, h4⟩⟩
  · intro ds
    exact should_process_of_fresh _ h y now
      (freshDetections_apply ds emptyTracker ⟨by simp [emptyTracker], rfl⟩)

/-- C3 counterexample: one second after confirming "ares", reset() empties
the maps, yet should_process("ares", 400) still returns false because the
last-processed timestamps survive the reset. -/
theorem reset_keeps_cooldown_cex :
    should_process (reset (mark_processed emptyTracker "ares" 100 (some "px") 1000))
        "ares" 400 1001 = false ∧
    (reset (mark_processed emptyTracker "ares" 100 (some "px") 1000)).seen = [] ∧
    (reset (mark_processed emptyTracker "ares" 100 (some "px") 1000)).gametags = [] :=
  ⟨rfl, rfl, rfl⟩

/-- C3 amended: reset clears the entry map, the label set and both
watermarks, but keeps the per-hero last-processed timestamps, and
should_process right after a reset returns true exactly for heroes without a
live cooldown (no recorded timestamp, a zero timestamp, or one at least
60 s old). -/
theorem reset_clears_except_cooldown (st : InstanceTracker) (h : String) (y now : Int) :
    (reset st).seen = [] ∧ (reset st).gametags = [] ∧
    (reset st).max_y_processed = 0 ∧ (reset st).min_y_seen = 99999 ∧
    (reset st).last_processed_ts = st.last_processed_ts ∧
    (should_process (reset st) h y now = true ↔
      ∀ ts, lookupEntry st.last_processed_ts (heroKey h) = some ts →
        ts = 0 ∨ 60 ≤ now - ts) := by
  refine ⟨rfl, rfl, rfl, rfl, rfl, ?_⟩
  unfold should_process
  simp only [reset]
  by_cases hcd : cooldownActive st.last_processed_ts (heroKey h) now = true
  · rw [if_pos hcd]
    obtain ⟨ts, hl, h0, hlt⟩ := (cooldownActive_iff _ _ _).mp hcd
    constructor
    · intro hfalse
      exact absurd hfalse (by simp)
    · intro hall
      rcases hall ts hl with hz | hge
      · exact absurd hz h0
      · exact absurd hge (by omega)
  · rw [if_neg hcd]
    have hall : ∀ ts, lookupEntry st.last_processed_ts (heroKey h) = some ts →
        ts = 0 ∨ 60 ≤ now - ts := by
      intro ts hl
      by_contra hno
      push_neg at hno
      exact hcd ((cooldownActive_iff _ _ _).mpr ⟨ts, hl, hno.1, by omega⟩)
    simp only [List.any_nil, Bool.not_false]
    simp only [true_iff]
    exact hall

/-- C6 counterexample: after mark_processed("hm", 100, None), a sighting at
the very same y (inside any vertical tolerance band) 100 s later is NOT
skipped — the UNKNOWN-keyed attempt is invisible to the proximity rule, so
only the 60 s cooldown ever blocks. -/
theorem none_label_proximity_not_enforced_cex :
    lookupEntry (mark_processed emptyTracker "hm" 100 none 1000).seen ("hm", none) =
      some (SeenCard.mk "hm" none 1000 100 true) ∧
    should_process (mark_processed emptyTracker "hm" 100 none 1000) "hm" 100 1100 = true :=
  ⟨rfl, rfl⟩

/-- C6 amended: a label-None confirmation is recorded as a processed entry
at the UNKNOWN key and adds no gametag; afterwards every sighting of that
hero is skipped while the 60 s cooldown is live, and once the cooldown has
expired every sighting — even one at the recorded y_center — is processed
again (the vertical-proximity rule never applies to UNKNOWN-keyed
entries). -/
theorem mark_processed_none_label (h : String) (y t y2 now : Int) :
    (mark_processed emptyTracker h y none t).gametags = [] ∧
    lookupEntry (mark_processed emptyTracker h y none t).seen (heroKey h, none) =
      some (SeenCard.mk h none t y true) ∧
    (t ≠ 0 → now - t < 60 →
      should_process (mark_processed emptyTracker h y none t) h y2 now = false) ∧
    (60 ≤ now - t →
      should_process (mark_processed emptyTracker h y none t) h y2 now = true) := by
  have hst : mark_processed emptyTracker h y none t =
      { seen := [((heroKey h, none), SeenCard.mk h none t y true)],
        gametags := [], max_y_processed := max 0 y, min_y_seen := 99999,
        last_processed_ts := [(heroKey h, t)] } := rfl
  rw [hst]
  refine ⟨rfl, by simp [lookupEntry], ?_, ?_⟩
  · intro h0 hlt
    unfold should_process
    rw [if_pos ((cooldownActive_iff _ _ _).mpr ⟨t, by simp [lookupEntry], h0, hlt⟩)]
  · intro h60
    unfold should_process
    have hcd : ¬ (cooldownActive [(heroKey h, t)] (heroKey h) now = true) := by
      intro hc
      obtain ⟨ts, hl, _, hlt⟩ := (cooldownActive_iff _ _ _).mp hc
      simp [lookupEntry] at hl
      omega
    rw [if_neg hcd]
    simp [entryBlocks]

/-- C7 counterexample: mark_processed with a whitespace-only gametag
(truthy in Python, empty after strip) stores a processed = true card under
the UNKNOWN key; the next add_detection for that hero then refreshes this
processed entry (its y_center moves 100 → 50 and its last_seen advances),
so add_detection does modify an entry whose processed flag is true. -/
theorem add_detection_touches_processed_cex :
    lookupEntry (mark_processed emptyTracker "a" 100 (some " ") 1000).seen ("a", none) =
      some (SeenCard.mk "a" (some "") 1000 100 true) ∧
    lookupEntry (add_detection (mark_processed emptyTracker "a" 100 (some " ") 1000)
        "a" 50 1010).seen ("a", none) =
      some (SeenCard.mk "a" (some "") 1010 50 true) :=
  ⟨rfl, rfl⟩

/-- C7 amended: add_detection leaves the label set, max-Y watermark,
timestamps and every entry at a key other than (hero, UNKNOWN) unchanged,
lowers min_y_seen, and writes only the (hero, UNKNOWN) entry: a fresh one
with processed = false, or a refresh that keeps the stored gametag and
processed flag (so it never sets processed to true, but it does refresh the
UNKNOWN-keyed entry even when that entry is already processed). -/
theorem add_detection_effect (st : InstanceTracker) (h : String) (y t : Int) :
    (add_detection st h y t).gametags = st.gametags ∧
    (add_detection st h y t).max_y_processed = st.max_y_processed ∧
    (add_detection st h y t).last_processed_ts = st.last_processed_ts ∧
    (add_detection st h y t).min_y_seen = min st.min_y_seen y ∧
    (∀ kk : String × Option String, kk ≠ (heroKey h, none) →
      lookupEntry (add_detection st h y t).seen kk = lookupEntry st.seen kk) ∧
    lookupEntry (add_detection st h y t).seen (heroKey h, none) =
      some (match lookupEntry st.seen (heroKey h, none) with
        | none => SeenCard.mk h none t y false
        | some c => SeenCard.mk c.hero_name c.gametag t y c.processed) := by
  refine ⟨rfl, rfl, rfl, rfl, ?_, ?_⟩
  · intro kk hne
    unfold add_detection
    cases hl : lookupEntry st.seen (heroKey h, none) with
    | none =>
        simp only [hl]
        exact lookup_insert_ne _ _ _ _ hne
    | some c =>
        simp only [hl]
        exact lookup_insert_ne _ _ _ _ hne
  · unfold add_detection
    cases hl : lookupEntry st.seen (heroKey h, none) with
    | none =>
        simp only [hl]
        exact lookup_insert_self _ _ _
    | some c =>
        simp only [hl]
        exact lookup_insert_self _ _ _

/-- Witness for C7's amended theorem at a concrete detection. -/
theorem add_detection_effect_witness :
    lookupEntry (add_detection emptyTracker "a" 5 3).seen ("b", none) =
        lookupEntry emptyTracker.seen ("b", none) ∧
    lookupEntry (add_detection emptyTracker "a" 5 3).seen ("a", none) =
      some (SeenCard.mk "a" none 3 5 false) := by
  have hmain := add_detection_effect emptyTracker "a" 5 3
  exact ⟨hmain.2.2.2.2.1 ("b", none) (by decide), hmain.2.2.2.2.2⟩

/-- Witness for C6's amended theorem: blocked 10 s after the label-None
attempt, processed again 100 s after it. -/
theorem mark_processed_none_label_witness :
    should_process (mark_processed emptyTracker "h2" 100 none 1000) "h2" 100 1010 = false ∧
    should_process (mark_processed emptyTracker "h2" 100 none 1000) "h2" 100 1100 = true := by
  have hmain := mark_processed_none_label "h2" 100 1000 100
  exact ⟨(hmain 1010).2.2.1 (by decide) (by decide), (hmain 1100).2.2.2 (by decide)⟩

/-- C2 counterexample: one second after confirming ("Haemon", "PlayerX") at
y = 100, a sighting at y = 900 — 800 px away, far outside the 320 px band —
still returns false, because the per-hero cooldown and the 45 s processed
lock block every sighting of the hero regardless of label or distance. -/
theorem distinct_labels_immediate_cex :
    should_process (mark_processed emptyTracker "Haemon" 100 (some "PlayerX") 1000)
      "Haemon" 900 1001 = false ∧
    ((900 : Int) - 100).natAbs = 800 :=
  ⟨rfl, rfl⟩

/-- C2 amended: once the 60 s cooldown since the confirmation has elapsed,
the confirmed ("haemon", "playerx") entry does not block the far-away
sighting at y = 900, and after confirming "PlayerY" there both normalized
labels are in the gametags set. -/
theorem distinct_labels_after_cooldown (t0 now t2 : Int) (hcool : t0 + 60 ≤ now) :
    should_process (mark_processed emptyTracker "Haemon" 100 (some "PlayerX") t0)
      "Haemon" 900 now = true ∧
    "playerx" ∈ (mark_processed (mark_processed emptyTracker "Haemon" 100 (some "PlayerX") t0)
      "Haemon" 900 (some "PlayerY") t2).gametags ∧
    "playery" ∈ (mark_processed (mark_processed emptyTracker "Haemon" 100 (some "PlayerX") t0)
      "Haemon" 900 (some "PlayerY") t2).gametags := by
  have hst : mark_processed emptyTracker "Haemon" 100 (some "PlayerX") t0 =
      { seen := [(("haemon", some "playerx"),
          SeenCard.mk "Haemon" (some "PlayerX") t0 100 true)],
        gametags := ["playerx"], max_y_processed := max 0 100, min_y_seen := 99999,
        last_processed_ts := [("haemon", t0)] } := rfl
  have hkey : heroKey "Haemon" = "haemon" := rfl
  refine ⟨?_, ?_, ?_⟩
  · rw [hst]
    unfold should_process
    have hcd : ¬ (cooldownActive [("haemon", t0)] (heroKey "Haemon") now = true) := by
      intro hc
      obtain ⟨ts, hl, _, hlt⟩ := (cooldownActive_iff _ _ _).mp hc
      rw [hkey] at hl
      simp [lookupEntry] at hl
      omega
    rw [if_neg hcd, hkey]
    have h45 : ¬ (now - t0 < 45) := by omega
    simp [entryBlocks, h45]
  · have hg : (mark_processed (mark_processed emptyTracker "Haemon" 100 (some "PlayerX") t0)
        "Haemon" 900 (some "PlayerY") t2).gametags = ["playerx", "playery"] := rfl
    rw [hg]
    simp
  · have hg : (mark_processed (mark_processed emptyTracker "Haemon" 100 (some "PlayerX") t0)
        "Haemon" 900 (some "PlayerY") t2).gametags = ["playerx", "playery"] := rfl
    rw [hg]
    simp

/-- Witness for C2's amended theorem at t0 = 1000, now = 1060, t2 = 1100. -/
theorem distinct_labels_after_cooldown_witness :
    should_process (mark_processed emptyTracker "Haemon" 100 (some "PlayerX") 1000)
      "Haemon" 900 1060 = true ∧
    "playerx" ∈ (mark_processed (mark_processed emptyTracker "Haemon" 100 (some "PlayerX") 1000)
      "Haemon" 900 (some "PlayerY") 1100).gametags ∧
    "playery" ∈ (mark_processed (mark_processed emptyTracker "Haemon" 100 (some "PlayerX") 1000)
      "Haemon" 900 (some "PlayerY") 1100).gametags :=
  distinct_labels_after_cooldown 1000 1060 1100 (by omega)

/-- C5: mark_processed is idempotent — repeating a call with the same
hero, y and gametag (at any later time) changes neither the list of entry
keys nor the gametags set. -/
theorem mark_processed_idempotent (st : InstanceTracker) (h : String) (y : Int)
    (g : Option String) (t1 t2 : Int) :
    (mark_processed (mark_processed st h y g t1) h y g t2).seen.map Prod.fst =
      (mark_processed st h y g t1).seen.map Prod.fst ∧
    (mark_processed (mark_processed st h y g t1) h y g t2).gametags =
      (mark_processed st h y g t1).gametags := by
  obtain ⟨v1, hshape1, _⟩ := mark_processed_seen_shape st h y g t1
  obtain ⟨v2, hshape2, _⟩ := mark_processed_seen_shape (mark_processed st h y g t1) h y g t2
  constructor
  · by_cases hk : (heroKey h, gametagKey (normalizeTag g)) =
        ((heroKey h, none) : String × Option String)
    · rw [hshape2, hshape1, hk]
      rw [remove_insert_self, remove_remove_self]
      rw [keys_insert, keys_insert, lookup_remove_self]
    · have hlu : lookupEntry (mark_processed st h y g t1).seen
          ((heroKey h, none) : String × Option String) = none := by
        rw [hshape1, lookup_insert_ne _ _ _ _ (fun hc => hk hc.symm)]
        exact lookup_remove_self _ _
      rw [hshape2, remove_of_lookup_none _ _ hlu, hshape1]
      rw [keys_insert]
      have hs : (lookupEntry (insertEntry (removeEntry st.seen (heroKey h, none))
          (heroKey h, gametagKey (normalizeTag g)) v1)
          (heroKey h, gametagKey (normalizeTag g))).isSome := by
        rw [lookup_insert_self]
        rfl
      rw [if_pos hs]
  · have hgam : ∀ (X : InstanceTracker) (tN : Int),
        (mark_processed X h y g tN).gametags =
          match normalizeTag g with
          | none => X.gametags
          | some tg => if tg = "" then X.gametags else addToSet X.gametags (pyLower tg) :=
      fun X tN => rfl
    rw [hgam, hgam]
    cases hn : normalizeTag g with
    | none => simp [hn]
    | some tg =>
        by_cases he : tg = ""
        · simp [hn, he]
        · simp [hn, he, addToSet_idem]

/-- C8: greedy NMS on exactly two candidates with distinct confidences
(either input order): when their IoU exceeds the 0.5 threshold only the
higher-confidence match survives; when it is below the threshold both
survive (higher first). -/
theorem nms_two_candidates (a b : MatchResult) (hconf : b.confidence < a.confidence) :
    ((1 : ℚ) / 2 < iouQ (box a) (box b) →
      non_max_suppression [a, b] (1 / 2) = [a] ∧
      non_max_suppression [b, a] (1 / 2) = [a]) ∧
    (iouQ (box a) (box b) < 1 / 2 →
      non_max_suppression [a, b] (1 / 2) = [a, b] ∧
      non_max_suppression [b, a] (1 / 2) = [a, b]) := by
  have hnot : ¬ (a.confidence < b.confidence) := not_lt.mpr (le_of_lt hconf)
  have hsort1 : sortByConfDesc [a, b] = [a, b] := by
    simp [sortByConfDesc, insertDesc, hconf]
  have hsort2 : sortByConfDesc [b, a] = [a, b] := by
    simp [sortByConfDesc, insertDesc, hnot]
  constructor
  · intro hgt
    have hnlt : ¬ (iouQ (box a) (box b) < 1 / 2) := not_lt.mpr (le_of_lt hgt)
    have hnlt2 : ¬ iouQ (box a) (box b) < 2⁻¹ := by rwa [one_div] at hnlt
    constructor
    · unfold non_max_suppression
      rw [hsort1]
      simp [nmsLoop, List.filter_cons, List.filter_nil, hnlt2]
    · unfold non_max_suppression
      rw [hsort2]
      simp [nmsLoop, List.filter_cons, List.filter_nil, hnlt2]
  · intro hlt
    have hlt2 : iouQ (box a) (box b) < 2⁻¹ := by rwa [one_div] at hlt
    constructor
    · unfold non_max_suppression
      rw [hsort1]
      simp [nmsLoop, List.filter_cons, List.filter_nil, hlt2]
    · unfold non_max_suppression
      rw [hsort2]
      simp [nmsLoop, List.filter_cons, List.filter_nil, hlt2]

/-- Witness for C8: an overlapping pair (IoU = 81/119.000001 > 0.5) keeps
only the higher-confidence match; a disjoint pair (IoU = 0) keeps both. -/
theorem nms_two_candidates_witness :
    non_max_suppression [MatchResult.mk "t" (0, 0) (10, 10) (9 / 10),
        MatchResult.mk "t" (1, 1) (10, 10) (8 / 10)] (1 / 2) =
      [MatchResult.mk "t" (0, 0) (10, 10) (9 / 10)] ∧
    non_max_suppression [MatchResult.mk "t" (0, 0) (10, 10) (9 / 10),
        MatchResult.mk "t" (100, 100) (10, 10) (8 / 10)] (1 / 2) =
      [MatchResult.mk "t" (0, 0) (10, 10) (9 / 10),
        MatchResult.mk "t" (100, 100) (10, 10) (8 / 10)] := by
  constructor
  · exact ((nms_two_candidates (MatchResult.mk "t" (0, 0) (10, 10) (9 / 10))
      (MatchResult.mk "t" (1, 1) (10, 10) (8 / 10)) (by norm_num)).1
      (by norm_num [iouQ, box, interArea, boxArea])).1
  · exact ((nms_two_candidates (MatchResult.mk "t" (0, 0) (10, 10) (9 / 10))
      (MatchResult.mk "t" (100, 100) (10, 10) (8 / 10)) (by norm_num)).2
      (by norm_num [iouQ, box, interArea, boxArea])).1

end BattleReport
